import Mathlib

/-!
Verification development for the JS-Endpoint-Secret-Hunter repository.

The repository contains two parallel implementations of the same pipeline:
`src/scanner.ts` (class `JSScanner`, embedded below in namespace `JSScanner`)
and `src/backend/index.ts` (class `JSEndpointSecretHunter`, embedded below in
namespace `JSH`).  Pure functions are translated directly; the impure inputs of
the TypeScript code are made explicit parameters:

* the compiled regular expressions of the pattern table are modelled as
  matcher functions `String → List String` carried by `PatternConfig`
  (mirroring `content.match(pattern.regex)` with the `g` flag);
* the exclusion filter `shouldExclude` is an explicit `String → Bool` argument;
* the network (`fetch` / `caido.http.request`) is a function
  `String → Option String` (resp. `String → Option (Nat × String)` where the
  `Nat` is the HTTP status), `none` denoting a transport failure;
* `Date.now()` is an explicit `now : Nat` argument (epoch milliseconds);
* `generateId()` (clock + RNG) is an explicit `genId : Nat → String` argument
  applied to the index of the emitted result;
* the two literal regexes used for script-tag extraction
  (`<script[^>]*src=["']([^"']+)["'][^>]*>` and
  `<script[^>]*>([\s\S]*?)<\/script>`, both with flags `gi`) are implemented
  as deterministic character-list scanners that reproduce the leftmost-match /
  greedy / lazy semantics of the JavaScript engine for exactly these patterns;
* the WHATWG `new URL` platform constructor is modelled by `parseURL`,
  restricted to the shapes the repository exercises.

Mutable class state (`scannedFiles`, `results`, `cache`) becomes explicit
state records threaded through the functions.
-/

set_option maxRecDepth 8192

/-- JavaScript-style whitespace test used to model `String.prototype.trim`. -/
def isWs (c : Char) : Bool :=
  c == ' ' || c == '\t' || c == '\n' || c == '\r'

/-- Model of the JavaScript `trim()`: drop leading and trailing whitespace. -/
def jsTrim (s : String) : String :=
  String.mk (((s.data.dropWhile isWs).reverse.dropWhile isWs).reverse)

/-- Boolean list-prefix test on characters. -/
def hasPrefixCh : List Char → List Char → Bool
  | [], _ => true
  | _ :: _, [] => false
  | a :: as, b :: bs => a == b && hasPrefixCh as bs

/-- Boolean substring test on character lists (contiguous occurrence). -/
def hasSubstrCh (pat : List Char) : List Char → Bool
  | [] => pat.isEmpty
  | c :: rest => hasPrefixCh pat (c :: rest) || hasSubstrCh pat rest

/-- Model of the JavaScript `s.includes(pat)`. -/
def strIncludes (s pat : String) : Bool :=
  hasSubstrCh pat.data s.data

/-- Model of the JavaScript `s.startsWith(pat)`. -/
def jsStartsWith (s pat : String) : Bool :=
  hasPrefixCh pat.data s.data

/-- Model of the JavaScript `s.endsWith(pat)`. -/
def jsEndsWith (s pat : String) : Bool :=
  hasPrefixCh pat.data.reverse s.data.reverse

/-- Characters of `s` strictly after the first occurrence of `pat`
(empty when `pat` does not occur). -/
def afterFirstCh (pat : List Char) : List Char → List Char
  | [] => []
  | c :: rest =>
    if hasPrefixCh pat (c :: rest) then (c :: rest).drop pat.length
    else afterFirstCh pat rest

/-- Characters of `s` strictly before the first occurrence of `pat`
(all of `s` when `pat` does not occur). -/
def upToFirstCh (pat : List Char) : List Char → List Char
  | [] => []
  | c :: rest =>
    if hasPrefixCh pat (c :: rest) then []
    else c :: upToFirstCh pat rest

/-- Model of the JavaScript `s.split(pat)[1]`: the text between the first and
the second occurrence of the separator (empty when there is no occurrence,
where JavaScript would yield `undefined`). -/
def jsSplitSecond (s pat : String) : String :=
  String.mk (upToFirstCh pat.data (afterFirstCh pat.data s.data))

/-- Model of the JavaScript `s.substring(s.length - 1)`: the last character of
`s` as a one-character string, or the empty string. -/
def lastCharStr (s : String) : String :=
  match s.data.reverse with
  | [] => ""
  | c :: _ => String.mk [c]

/-- Single or double quote character test (the class `["']`). -/
def isQuoteCh (c : Char) : Bool :=
  c == '"' || c == Char.ofNat 39

/-- Model of `match.replace(/["']/g, '')`: remove every quote character. -/
def stripQuotes (s : String) : String :=
  String.mk (s.data.filter (fun c => !(isQuoteCh c)))

/-- Character allowed by the id sanitiser class `[a-zA-Z0-9\-_]`. -/
def idSafe (c : Char) : Bool :=
  c.isAlpha || c.isDigit || c == '-' || c == '_'

/-- Model of `s.replace(/[^a-zA-Z0-9\-_]/g, '-')`. -/
def sanitizeId (s : String) : String :=
  String.mk (s.data.map (fun c => if idSafe c then c else '-'))

/-- Model of `s.substring(0, s.lastIndexOf('/') + 1)`: the prefix of `s` up to
and including its last slash (empty when `s` has no slash, matching the
`lastIndexOf = -1` behaviour). -/
def upToLastSlash (s : String) : String :=
  String.mk ((s.data.reverse.dropWhile (fun c => !(c == '/'))).reverse)

/-- Case-insensitive prefix test: `pat` is given in lower case and each input
character is lowered before comparison (models regex flag `i` on the literal
parts of the script-tag patterns). -/
def lcPrefixCh : List Char → List Char → Bool
  | [], _ => true
  | _ :: _, [] => false
  | a :: as, b :: bs => a == b.toLower && lcPrefixCh as bs

/-- The literal `<script` of both script-tag regexes. -/
def scriptOpenCh : List Char := "<script".data

/-- The literal `</script>` closing an inline block. -/
def scriptCloseCh : List Char := "</script>".data

/-- Split the input at the first (case-insensitive) `</script>`: the lazy
capture `([\s\S]*?)` of the inline regex takes everything before it.  `none`
when no closing tag occurs. -/
def splitAtClose : List Char → Option (List Char × List Char)
  | [] => none
  | c :: rest =>
    if lcPrefixCh scriptCloseCh (c :: rest) then some ([], (c :: rest).drop 9)
    else
      match splitAtClose rest with
      | some (b, r) => some (c :: b, r)
      | none => none

/-- Try to match `<script[^>]*>([\s\S]*?)<\/script>` starting exactly here:
the literal `<script`, then greedily everything up to the first `>`, then the
lazily captured body up to the first `</script>`.  Returns the captured body
and the remainder after the full match. -/
def tryInlineAt (cs : List Char) : Option (List Char × List Char) :=
  if lcPrefixCh scriptOpenCh cs then
    match (cs.drop 7).dropWhile (fun c => !(c == '>')) with
    | [] => none
    | _ :: afterGt => splitAtClose afterGt
  else none

/-- Scan left to right collecting every non-overlapping inline-script match,
resuming after the end of each match, exactly as `regex.exec` does in a loop
with the `g` flag.  The fuel is an upper bound on the number of scan steps. -/
def scanInlineAux : Nat → List Char → List (List Char)
  | 0, _ => []
  | _, [] => []
  | Nat.succ fuel, c :: rest =>
    match tryInlineAt (c :: rest) with
    | some (body, rest2) => body :: scanInlineAux fuel rest2
    | none => scanInlineAux fuel rest

/-- All inline `<script>` bodies of an HTML document, in document order,
as captured by `/<script[^>]*>([\s\S]*?)<\/script>/gi`. -/
def jsInlineBodies (html : String) : List String :=
  (scanInlineAux (html.data.length + 1) html.data).map String.mk

/-- The literal `src=` of the external-script regex. -/
def srcEqCh : List Char := "src=".data

/-- Match `["']([^"']+)["']`: an opening quote, a non-empty greedy run of
non-quote characters, and a closing quote (either kind). -/
def tryQuoted (cs : List Char) : Option (List Char × List Char) :=
  match cs with
  | [] => none
  | q :: rest =>
    if isQuoteCh q then
      let v := rest.takeWhile (fun c => !(isQuoteCh c))
      if v.isEmpty then none
      else
        match rest.drop v.length with
        | q2 :: rest2 => if isQuoteCh q2 then some (v, rest2) else none
        | [] => none
    else none

/-- Match `src=["']([^"']+)["'][^>]*>` starting exactly here; returns the
captured attribute value and the remainder after the closing `>`. -/
def tryAfterSrc (cs : List Char) : Option (List Char × List Char) :=
  if lcPrefixCh srcEqCh cs then
    match tryQuoted (cs.drop 4) with
    | some (v, rest2) =>
      match rest2.dropWhile (fun c => !(c == '>')) with
      | [] => none
      | _ :: afterGt => some (v, afterGt)
    | none => none
  else none

/-- Backtracking of the greedy `[^>]*` between `<script` and `src=`: try the
longest gap first (index `k` counts the characters consumed by the gap). -/
def tryDesc (r : List Char) : Nat → Option (List Char × List Char)
  | 0 => tryAfterSrc r
  | Nat.succ k =>
    match tryAfterSrc (r.drop (Nat.succ k)) with
    | some res => some res
    | none => tryDesc r k

/-- Try to match `<script[^>]*src=["']([^"']+)["'][^>]*>` starting exactly
here, with the greedy-then-backtrack semantics of the JavaScript engine. -/
def tryExternalAt (cs : List Char) : Option (List Char × List Char) :=
  if lcPrefixCh scriptOpenCh cs then
    let r := cs.drop 7
    tryDesc r (r.takeWhile (fun c => !(c == '>'))).length
  else none

/-- Scan left to right collecting every captured `src` value, resuming after
each full match. -/
def scanSrcAux : Nat → List Char → List (List Char)
  | 0, _ => []
  | _, [] => []
  | Nat.succ fuel, c :: rest =>
    match tryExternalAt (c :: rest) with
    | some (v, rest2) => v :: scanSrcAux fuel rest2
    | none => scanSrcAux fuel rest

/-- All `src` attribute values of script tags of an HTML document, in document
order, as captured by `/<script[^>]*src=["']([^"']+)["'][^>]*>/gi`. -/
def jsSrcValues (html : String) : List String :=
  (scanSrcAux (html.data.length + 1) html.data).map String.mk

/-- Components of a parsed absolute URL, as exposed by the WHATWG `URL`
object: `protocol` includes the trailing colon, `host` includes a port when
present, `pathname` starts with a slash for http(s) URLs. -/
structure URLParts where
  protocol : String
  host : String
  pathname : String
deriving DecidableEq

/-- First character allowed in a URL scheme. -/
def isSchemeStart (c : Char) : Bool := c.isAlpha

/-- Subsequent characters allowed in a URL scheme. -/
def isSchemeChar (c : Char) : Bool :=
  c.isAlpha || c.isDigit || c == '+' || c == '-' || c == '.'

/-- Model of the platform `new URL(s)` constructor (the URL library is not
part of the repository), restricted to the shapes this code base exercises:
an http(s) URL must have the form `scheme://host[path][?query][#fragment]`
with a non-empty host; other valid schemes parse opaquely with an empty host.
`none` models the thrown `TypeError` for inputs with no valid scheme. -/
def parseURL (s : String) : Option URLParts :=
  let cs := s.data
  let scheme := cs.takeWhile (fun c => !(c == ':'))
  let schemeOk :=
    match scheme with
    | [] => false
    | c :: rest => isSchemeStart c && rest.all isSchemeChar
  if !schemeOk then none
  else
    match cs.drop scheme.length with
    | [] => none
    | _ :: afterColon =>
      let proto := String.mk (scheme.map Char.toLower) ++ ":"
      let special := proto == "http:" || proto == "https:"
      if hasPrefixCh "//".data afterColon then
        let afterSlashes := afterColon.drop 2
        let hostCh := afterSlashes.takeWhile (fun c => !(c == '/' || c == '?' || c == '#'))
        if special && hostCh.isEmpty then none
        else
          let pathCh := (afterSlashes.drop hostCh.length).takeWhile (fun c => !(c == '?' || c == '#'))
          some { protocol := proto
                 host := String.mk (hostCh.map Char.toLower)
                 pathname := if pathCh.isEmpty then "/" else String.mk pathCh }
      else if special then none
      else
        some { protocol := proto
               host := ""
               pathname := String.mk (afterColon.takeWhile (fun c => !(c == '?' || c == '#'))) }

/-- One entry of the detection-pattern table (`patterns.ts`, `PatternConfig`):
the compiled regular expression is modelled by `matcher`, the function that
returns the list of matches `content.match(regex)` produces (empty for a null
match result). -/
structure PatternConfig where
  name : String
  type : String
  matcher : String → List String
  description : String

/-- Two-digit zero-padded decimal. -/
def pad2 (n : Nat) : String :=
  if n < 10 then "0" ++ toString n else toString n

/-- Three-digit zero-padded decimal. -/
def pad3 (n : Nat) : String :=
  if n < 10 then "00" ++ toString n
  else if n < 100 then "0" ++ toString n
  else toString n

/-- Four-digit zero-padded decimal. -/
def pad4 (n : Nat) : String :=
  if n < 10 then "000" ++ toString n
  else if n < 100 then "00" ++ toString n
  else if n < 1000 then "0" ++ toString n
  else toString n

/-- Proleptic-Gregorian civil date (year, month, day) of a day count since
1970-01-01; standard era-based conversion. -/
def civilFromDays (daysSinceEpoch : Nat) : Nat × Nat × Nat :=
  let z := daysSinceEpoch + 719468
  let era := z / 146097
  let doe := z % 146097
  let yoe := (doe - doe / 1460 + doe / 36524 - doe / 146096) / 365
  let y := yoe + era * 400
  let doy := doe - (365 * yoe + yoe / 4 - yoe / 100)
  let mp := (5 * doy + 2) / 153
  let d := doy - (153 * mp + 2) / 5 + 1
  let m := if mp < 10 then mp + 3 else mp - 9
  (if m ≤ 2 then y + 1 else y, m, d)

/-- Model of `new Date(ms).toISOString()` for a non-negative epoch-millisecond
timestamp: `YYYY-MM-DDTHH:mm:ss.sssZ`. -/
def isoOfMillis (ms : Nat) : String :=
  let days := ms / 86400000
  let rem := ms % 86400000
  let ymd := civilFromDays days
  pad4 ymd.1 ++ "-" ++ pad2 ymd.2.1 ++ "-" ++ pad2 ymd.2.2 ++ "T" ++
    pad2 (rem / 3600000) ++ ":" ++ pad2 (rem % 3600000 / 60000) ++ ":" ++
    pad2 (rem % 60000 / 1000) ++ "." ++ pad3 (rem % 1000) ++ "Z"

namespace JSScanner

/-- The `ScanResult` record of `src/scanner.ts` (no severity field there). -/
structure ScanResult where
  id : String
  fileUrl : String
  matchType : String
  matchValue : String
  sourceRequestId : String
  sourceUrl : String
  patternName : String
  timestamp : Nat
deriving DecidableEq

/-- The `JSFile` record of `src/scanner.ts`. -/
structure JSFile where
  url : String
  content : String
  sourceRequestId : String
  sourceUrl : String
deriving DecidableEq

/-- The mutable state of the `JSScanner` class: the `scannedFiles` set and the
`results` array (result callbacks carry no state that affects findings). -/
structure State where
  scannedFiles : List String
  results : List ScanResult
deriving DecidableEq

/-- The state of a freshly constructed `JSScanner`. -/
def initState : State := { scannedFiles := [], results := [] }

/-- `JSScanner.resolveUrl` (`src/scanner.ts:68-90`); `none` models the
`catch` branch returning `null` when `new URL(baseUrl)` throws. -/
def resolveUrl (url baseUrl : String) : Option String :=
  if jsStartsWith url "http://" || jsStartsWith url "https://" then some url
  else
    match parseURL baseUrl with
    | none => none
    | some base =>
      if jsStartsWith url "//" then some (base.protocol ++ url)
      else if jsStartsWith url "/" then some (base.protocol ++ "//" ++ base.host ++ url)
      else
        some (base.protocol ++ "//" ++ base.host ++
          (if jsEndsWith base.pathname "/" then base.pathname else upToLastSlash base.pathname) ++ url)

/-- `JSScanner.extractJSFiles` (`src/scanner.ts:36-63`).  Note that this code
path builds the synthetic inline URL from `Date.now()` (modelled by `now`),
not from a sequence index. -/
def extractJSFiles (now : Nat) (htmlContent baseUrl : String) : List String :=
  (jsSrcValues htmlContent).filterMap (fun src =>
      if jsEndsWith src ".js" || strIncludes src ".js?" then resolveUrl src baseUrl else none)
    ++ ((jsInlineBodies htmlContent).map jsTrim).filterMap (fun scriptContent =>
      if 100 < scriptContent.data.length
      then some (baseUrl ++ "#inline-script-" ++ toString now)
      else none)

/-- `JSScanner.downloadJSFile` (`src/scanner.ts:95-122`): inline pseudo-URLs
yield `null`; otherwise the fetch result (`none` for a non-ok status or a
transport error, both of which return `null` in the source). -/
def downloadJSFile (net : String → Option String) (url : String) : Option String :=
  if strIncludes url "#inline-script-" then none
  else net url

/-- `JSScanner.scanJSContent` (`src/scanner.ts:127-164`): no per-call
deduplication in this variant. -/
def scanJSContent (pats : List PatternConfig) (excl : String → Bool) (now : Nat)
    (content fileUrl sourceRequestId sourceUrl : String) : List ScanResult :=
  pats.foldl (fun acc p =>
    (p.matcher content).foldl (fun acc2 m =>
      let cleanMatch := jsTrim (stripQuotes m)
      if excl cleanMatch then acc2
      else if (p.type == "endpoint" && cleanMatch.data.length < 5)
           || (p.type == "secret" && cleanMatch.data.length < 8) then acc2
      else acc2 ++ [{ id := sanitizeId (fileUrl ++ "-" ++ p.name ++ "-" ++ cleanMatch)
                      fileUrl := fileUrl
                      matchType := p.type
                      matchValue := cleanMatch
                      sourceRequestId := sourceRequestId
                      sourceUrl := sourceUrl
                      patternName := p.name
                      timestamp := now }]) acc) []

/-- `JSScanner.processJSFile` (`src/scanner.ts:169-205`): skip when already
scanned, otherwise mark scanned first, then resolve content (downloading
non-inline targets with empty content) and append the scan results. -/
def processJSFile (net : String → Option String) (now : Nat) (pats : List PatternConfig)
    (excl : String → Bool) (jsFile : JSFile) (s : State) : State :=
  if s.scannedFiles.contains jsFile.url then s
  else
    let s1 : State := { s with scannedFiles := jsFile.url :: s.scannedFiles }
    if jsFile.content == "" && !(strIncludes jsFile.url "#inline-script-") then
      match downloadJSFile net jsFile.url with
      | none => s1
      | some c =>
        if c == "" then s1
        else { s1 with results :=
                 s1.results ++ scanJSContent pats excl now c jsFile.url jsFile.sourceRequestId jsFile.sourceUrl }
    else if jsFile.content == "" then s1
    else { s1 with results :=
             s1.results ++ scanJSContent pats excl now jsFile.content jsFile.url jsFile.sourceRequestId jsFile.sourceUrl }

/-- Helper of `extractInlineScript`: walk the qualifying inline bodies with a
counter and return the one whose index string equals the key. -/
def findQualifiedAt : List String → Nat → String → String
  | [], _, _ => ""
  | b :: bs, i, key => if toString i == key then b else findQualifiedAt bs (i + 1) key

/-- `JSScanner.extractInlineScript` (`src/scanner.ts:245-262`): recover an
inline body from the HTML by comparing the loop index against the last
character of the timestamp part of the pseudo-URL. -/
def extractInlineScript (htmlContent inlineUrl : String) : String :=
  let key := lastCharStr (jsSplitSecond inlineUrl "#inline-script-")
  findQualifiedAt
    (((jsInlineBodies htmlContent).map jsTrim).filter (fun c => 100 < c.data.length)) 0 key

/-- `JSScanner.processResponse` (`src/scanner.ts:210-240`); the source
hard-codes `contentType = 'text/html'`. -/
def processResponse (net : String → Option String) (now : Nat) (pats : List PatternConfig)
    (excl : String → Bool) (responseBody responseUrl requestId : String) (s : State) : State :=
  let contentType := "text/html"
  if jsEndsWith responseUrl ".js" || strIncludes contentType "javascript" then
    processJSFile net now pats excl
      { url := responseUrl, content := responseBody
        sourceRequestId := requestId, sourceUrl := responseUrl } s
  else if strIncludes contentType "html" then
    (extractJSFiles now responseBody responseUrl).foldl (fun st jsUrl =>
      processJSFile net now pats excl
        { url := jsUrl
          content := if strIncludes jsUrl "#inline-script-"
                     then extractInlineScript responseBody jsUrl else ""
          sourceRequestId := requestId, sourceUrl := responseUrl } st) s
  else s

/-- `JSScanner.clear` (`src/scanner.ts:274-277`). -/
def clear (s : State) : State :=
  { s with results := [], scannedFiles := [] }

/-- `JSScanner.getResults` (`src/scanner.ts:267-269`). -/
def getResults (s : State) : List ScanResult := s.results

end JSScanner

namespace JSH

/-- The `ScanResult` record of `src/backend/index.ts` (with severity; the
severity union type becomes a plain string). -/
structure ScanResult where
  id : String
  fileUrl : String
  matchType : String
  matchValue : String
  sourceRequestId : String
  sourceUrl : String
  patternName : String
  timestamp : Nat
  severity : String
deriving DecidableEq

/-- `getSeverity` (`src/backend/index.ts:317-331`). -/
def getSeverity (type patternName : String) : String :=
  if type == "secret" then
    if strIncludes patternName "AWS" || strIncludes patternName "Private Key"
        || strIncludes patternName "Database" then "critical"
    else if strIncludes patternName "API Key" || strIncludes patternName "JWT"
        || strIncludes patternName "Token" then "high"
    else "medium"
  else if type == "endpoint" then "medium"
  else if type == "email" then "low"
  else if type == "ip" then "info"
  else "info"

/-- The body of the inner match loop of `scanJSContent`
(`src/backend/index.ts:282-310`): clean the raw match, apply the exclusion
filter, the per-call duplicate check on (value, type), the minimum-length
thresholds, and finally push a new result. -/
def scanStep (excl : String → Bool) (genId : Nat → String) (now : Nat)
    (fileUrl sourceRequestId sourceUrl : String) (p : PatternConfig)
    (acc : List ScanResult) (m : String) : List ScanResult :=
  let cleanMatch := jsTrim (stripQuotes m)
  if excl cleanMatch then acc
  else if acc.any (fun r => r.matchValue == cleanMatch && r.matchType == p.type) then acc
  else if p.type == "secret" && cleanMatch.data.length < 8 then acc
  else if p.type == "endpoint" && cleanMatch.data.length < 5 then acc
  else acc ++ [{ id := genId acc.length
                 fileUrl := fileUrl
                 matchType := p.type
                 matchValue := cleanMatch
                 sourceRequestId := sourceRequestId
                 sourceUrl := sourceUrl
                 patternName := p.name
                 timestamp := now
                 severity := getSeverity p.type p.name }]

/-- `scanJSContent` (`src/backend/index.ts:271-315`). -/
def scanJSContent (pats : List PatternConfig) (excl : String → Bool)
    (genId : Nat → String) (now : Nat)
    (content fileUrl sourceRequestId sourceUrl : String) : List ScanResult :=
  pats.foldl (fun acc p =>
    (p.matcher content).foldl (scanStep excl genId now fileUrl sourceRequestId sourceUrl p) acc) []

/-- `resolveUrl` (`src/backend/index.ts:206-218`); the general relative case
delegates to the platform resolver `new URL(url, baseUrl).href`, modelled by
the `urlResolve` argument (`none` models a thrown `TypeError`, caught and
turned into `null`). -/
def resolveUrl (urlResolve : String → String → Option String) (url baseUrl : String) :
    Option String :=
  if jsStartsWith url "http://" || jsStartsWith url "https://" then some url
  else if jsStartsWith url "//" then
    match parseURL baseUrl with
    | some base => some (base.protocol ++ url)
    | none => none
  else urlResolve url baseUrl

/-- The inline-script loop of `extractJSFiles`
(`src/backend/index.ts:191-201`) over the qualifying (already trimmed,
length > 100) bodies: assign `baseUrl#inline-script-<i>` with the running
counter, collect the URLs and the `cache.set` insertions in order. -/
def inlineLoop (baseUrl : String) : Nat → List String → List String × List (String × String)
  | _, [] => ([], [])
  | i, b :: bs =>
    let u := baseUrl ++ "#inline-script-" ++ toString i
    let rest := inlineLoop baseUrl (i + 1) bs
    (u :: rest.1, (u, b) :: rest.2)

/-- `extractJSFiles` (`src/backend/index.ts:175-204`): external script URLs
(resolved, `.js` / `.js?` only) followed by the synthetic inline URLs; the
second component lists the content-cache insertions performed for inline
bodies. -/
def extractJSFiles (urlResolve : String → String → Option String)
    (htmlContent baseUrl : String) : List String × List (String × String) :=
  let externals := (jsSrcValues htmlContent).filterMap (fun src =>
    if jsEndsWith src ".js" || strIncludes src ".js?"
    then resolveUrl urlResolve src baseUrl else none)
  let quals := ((jsInlineBodies htmlContent).map jsTrim).filter (fun c => 100 < c.data.length)
  let inl := inlineLoop baseUrl 0 quals
  (externals ++ inl.1, inl.2)

/-- Lookup in the content cache (a `Map<string,string>` modelled as an
association list where an insertion prepends and shadows older entries). -/
def cacheGet (cache : List (String × String)) (url : String) : Option String :=
  match cache.find? (fun e => e.fst == url) with
  | some e => some e.snd
  | none => none

/-- Model of the JavaScript `x || null` coercion on a string-or-missing
value: the empty string and a missing value both become `none`. -/
def jsOrNull : Option String → Option String
  | none => none
  | some c => if c == "" then none else some c

/-- `downloadJSFile` (`src/backend/index.ts:220-250`): cached value first,
then the inline pseudo-URL case (`cache.get(url) || null`), then a single GET
through the host HTTP client (`net url = none` models a transport failure /
thrown error); only a 200 status stores and returns the body. -/
def downloadJSFile (net : String → Option (Nat × String)) (url : String)
    (cache : List (String × String)) : Option String × List (String × String) :=
  match cacheGet cache url with
  | some c => (some c, cache)
  | none =>
    if strIncludes url "#inline-script-" then (jsOrNull (cacheGet cache url), cache)
    else
      match net url with
      | none => (none, cache)
      | some sb =>
        if sb.fst == 200 then (some sb.snd, (url, sb.snd) :: cache)
        else (none, cache)

/-- Escape for CSV cells: `cell.toString().replace(/"/g, '""')`. -/
def escQ (s : String) : String :=
  String.mk (s.data.foldr (fun c acc => if c == '"' then '"' :: '"' :: acc else c :: acc) [])

/-- A quoted CSV cell. -/
def csvCell (s : String) : String := "\"" ++ escQ s ++ "\""

/-- One CSV line: every cell quoted and escaped, joined with commas
(`row.map(cell => ...).join(',')`). -/
def csvRowString (cells : List String) : String :=
  String.intercalate "," (cells.map csvCell)

/-- The `headers` array of `exportResults` (`src/backend/index.ts:382`). -/
def headerCells : List String :=
  ["ID", "Type", "Severity", "Pattern", "Value", "File URL", "Source URL", "Timestamp"]

/-- The cell values of one result row (`src/backend/index.ts:383-392`); the
timestamp is rendered by `new Date(r.timestamp).toISOString()`. -/
def rowCells (r : ScanResult) : List String :=
  [r.id, r.matchType, r.severity, r.patternName, r.matchValue, r.fileUrl, r.sourceUrl,
   isoOfMillis r.timestamp]

/-- The CSV branch of `exportResults` (`src/backend/index.ts:381-397`):
`[headers, ...rows].map(quoted-join).join('\n')`. -/
def exportCSV (results : List ScanResult) : String :=
  String.intercalate "\n" ((headerCells :: results.map rowCells).map csvRowString)

end JSH

/-- Distinctness of two backend results on the (type, value) projection, the
pair checked by the per-call duplicate filter. -/
def resultPairDistinctTV (a b : JSH.ScanResult) : Prop :=
  ¬(a.matchType = b.matchType ∧ a.matchValue = b.matchValue)

/-- Sanity checks of the script-tag regex embedding, the URL model, and the
ISO-8601 rendering, on concrete inputs. -/
theorem embedding_sanity_checks :
    jsInlineBodies "<script>abc</script><script type=_>xy</script>" = ["abc", "xy"]
  ∧ jsSrcValues "<p><script defer src=\"a.js\"></script></p>" = ["a.js"]
  ∧ jsSrcValues "<script>var x = 1;</script>" = []
  ∧ parseURL "https://h.com/x/y"
      = some { protocol := "https:", host := "h.com", pathname := "/x/y" }
  ∧ parseURL "not a url" = none
  ∧ upToLastSlash "/x/y.html" = "/x/"
  ∧ isoOfMillis 0 = "1970-01-01T00:00:00.000Z" := by
  refine ⟨by decide, by decide, by decide, by decide, by decide, by decide, by decide⟩

/-- C2: `resolveUrl` of the scanner returns the reference unchanged when it
begins with `http://` or `https://`; prefixes the base's scheme for
protocol-relative references; prefixes scheme+host for root-relative ones;
joins other references to the directory portion of the base's path (final
segment after the last slash dropped); returns `none` when the base URL does
not parse; and satisfies the four concrete examples of the specification. -/
theorem c2_resolveUrl_rules :
    (∀ url baseUrl : String,
      (jsStartsWith url "http://" = true ∨ jsStartsWith url "https://" = true) →
      JSScanner.resolveUrl url baseUrl = some url)
  ∧ (∀ (url baseUrl : String) (base : URLParts),
      jsStartsWith url "http://" = false → jsStartsWith url "https://" = false →
      parseURL baseUrl = some base → jsStartsWith url "//" = true →
      JSScanner.resolveUrl url baseUrl = some (base.protocol ++ url))
  ∧ (∀ (url baseUrl : String) (base : URLParts),
      jsStartsWith url "http://" = false → jsStartsWith url "https://" = false →
      parseURL baseUrl = some base → jsStartsWith url "//" = false →
      jsStartsWith url "/" = true →
      JSScanner.resolveUrl url baseUrl = some (base.protocol ++ "//" ++ base.host ++ url))
  ∧ (∀ (url baseUrl : String) (base : URLParts),
      jsStartsWith url "http://" = false → jsStartsWith url "https://" = false →
      parseURL baseUrl = some base → jsStartsWith url "//" = false →
      jsStartsWith url "/" = false →
      JSScanner.resolveUrl url baseUrl = some (base.protocol ++ "//" ++ base.host ++
        (if jsEndsWith base.pathname "/" then base.pathname
         else upToLastSlash base.pathname) ++ url))
  ∧ (∀ url baseUrl : String,
      jsStartsWith url "http://" = false → jsStartsWith url "https://" = false →
      parseURL baseUrl = none → JSScanner.resolveUrl url baseUrl = none)
  ∧ JSScanner.resolveUrl "/a/b" "https://h.com/x/y" = some "https://h.com/a/b"
  ∧ JSScanner.resolveUrl "c.js" "https://h.com/x/y.html" = some "https://h.com/x/c.js"
  ∧ JSScanner.resolveUrl "//cdn.com/a.js" "https://h.com/" = some "https://cdn.com/a.js"
  ∧ JSScanner.resolveUrl "https://z.com/a" "https://h.com/" = some "https://z.com/a" := by
  refine ⟨?_, ?_, ?_, ?_, ?_, by decide, by decide, by decide, by decide⟩
  · intro url baseUrl h
    rcases h with h | h <;> simp [JSScanner.resolveUrl, h]
  · intro url baseUrl base h1 h2 hp hs
    simp [JSScanner.resolveUrl, h1, h2, hp, hs]
  · intro url baseUrl base h1 h2 hp hs hr
    simp [JSScanner.resolveUrl, h1, h2, hp, hs, hr]
  · intro url baseUrl base h1 h2 hp hs hr
    simp [JSScanner.resolveUrl, h1, h2, hp, hs, hr]
  · intro url baseUrl h1 h2 hp
    simp [JSScanner.resolveUrl, h1, h2, hp]

/-- Every result the inner match step can produce or keep carries the
severity computed from its own type and pattern name. -/
theorem scanStep_severity_invariant (excl : String → Bool) (genId : Nat → String) (now : Nat)
    (fileUrl sourceRequestId sourceUrl : String) (p : PatternConfig)
    (acc : List JSH.ScanResult) (m : String)
    (h : ∀ r ∈ acc, r.severity = JSH.getSeverity r.matchType r.patternName) :
    ∀ r ∈ JSH.scanStep excl genId now fileUrl sourceRequestId sourceUrl p acc m,
      r.severity = JSH.getSeverity r.matchType r.patternName := by
  simp only [JSH.scanStep]
  split_ifs
  · exact h
  · exact h
  · exact h
  · exact h
  · intro r hr
    rw [List.mem_append, List.mem_singleton] at hr
    rcases hr with hr | hr
    · exact h r hr
    · subst hr
      rfl

/-- The severity invariant is preserved by the fold over the matches of one
pattern. -/
theorem foldl_scanStep_severity_invariant (excl : String → Bool) (genId : Nat → String)
    (now : Nat) (fileUrl sourceRequestId sourceUrl : String) (p : PatternConfig)
    (ms : List String) :
    ∀ acc : List JSH.ScanResult,
      (∀ r ∈ acc, r.severity = JSH.getSeverity r.matchType r.patternName) →
      ∀ r ∈ ms.foldl (JSH.scanStep excl genId now fileUrl sourceRequestId sourceUrl p) acc,
        r.severity = JSH.getSeverity r.matchType r.patternName := by
  induction ms with
  | nil => intro acc h; exact h
  | cons m ms ih =>
    intro acc h
    exact ih _ (scanStep_severity_invariant excl genId now fileUrl sourceRequestId sourceUrl p acc m h)

/-- The severity invariant holds for every result of a full backend scan. -/
theorem scanJSContent_severity_invariant (pats : List PatternConfig) (excl : String → Bool)
    (genId : Nat → String) (now : Nat) (content fileUrl sourceRequestId sourceUrl : String) :
    ∀ r ∈ JSH.scanJSContent pats excl genId now content fileUrl sourceRequestId sourceUrl,
      r.severity = JSH.getSeverity r.matchType r.patternName := by
  have main : ∀ (ps : List PatternConfig) (acc : List JSH.ScanResult),
      (∀ r ∈ acc, r.severity = JSH.getSeverity r.matchType r.patternName) →
      ∀ r ∈ ps.foldl (fun acc2 p =>
          (p.matcher content).foldl
            (JSH.scanStep excl genId now fileUrl sourceRequestId sourceUrl p) acc2) acc,
        r.severity = JSH.getSeverity r.matchType r.patternName := by
    intro ps
    induction ps with
    | nil => intro acc h; exact h
    | cons p ps ih =>
      intro acc h
      exact ih _ (foldl_scanStep_severity_invariant excl genId now fileUrl sourceRequestId
        sourceUrl p (p.matcher content) acc h)
  exact main pats [] (by intro r hr; cases hr)

/-- The inner match step preserves pairwise (type, value)-distinctness of the
accumulated results: a candidate equal to an already-produced (value, type)
pair is discarded by the duplicate check. -/
theorem scanStep_pairwise_distinct (excl : String → Bool) (genId : Nat → String) (now : Nat)
    (fileUrl sourceRequestId sourceUrl : String) (p : PatternConfig)
    (acc : List JSH.ScanResult) (m : String)
    (h : List.Pairwise resultPairDistinctTV acc) :
    List.Pairwise resultPairDistinctTV
      (JSH.scanStep excl genId now fileUrl sourceRequestId sourceUrl p acc m) := by
  simp only [JSH.scanStep]
  split_ifs with h1 h2 h3 h4
  · exact h
  · exact h
  · exact h
  · exact h
  · rw [List.pairwise_append]
    refine ⟨h, List.pairwise_singleton _ _, ?_⟩
    intro a ha b hb
    rw [List.mem_singleton] at hb
    subst hb
    rintro ⟨ht, hv⟩
    apply h2
    rw [List.any_eq_true]
    refine ⟨a, ha, ?_⟩
    rw [Bool.and_eq_true, beq_iff_eq, beq_iff_eq]
    exact ⟨hv, ht⟩

/-- Pairwise distinctness is preserved by the fold over the matches of one
pattern. -/
theorem foldl_scanStep_pairwise_distinct (excl : String → Bool) (genId : Nat → String)
    (now : Nat) (fileUrl sourceRequestId sourceUrl : String) (p : PatternConfig)
    (ms : List String) :
    ∀ acc : List JSH.ScanResult, List.Pairwise resultPairDistinctTV acc →
      List.Pairwise resultPairDistinctTV
        (ms.foldl (JSH.scanStep excl genId now fileUrl sourceRequestId sourceUrl p) acc) := by
  induction ms with
  | nil => intro acc h; exact h
  | cons m ms ih =>
    intro acc h
    exact ih _ (scanStep_pairwise_distinct excl genId now fileUrl sourceRequestId sourceUrl p acc m h)

/-- C1: one call of the backend detection-engine scan never returns two
Findings with identical (fileUrl, category, value): the per-call duplicate
check discards any candidate whose cleaned (value, category) pair was already
produced in the same call, for every content string, pattern table, exclusion
filter, id generator, clock value, file URL, request id, and origin URL. -/
theorem c1_scan_no_duplicate_findings (pats : List PatternConfig) (excl : String → Bool)
    (genId : Nat → String) (now : Nat)
    (content fileUrl sourceRequestId sourceUrl : String) :
    List.Pairwise (fun a b : JSH.ScanResult =>
        ¬(a.fileUrl = b.fileUrl ∧ a.matchType = b.matchType ∧ a.matchValue = b.matchValue))
      (JSH.scanJSContent pats excl genId now content fileUrl sourceRequestId sourceUrl) := by
  have main : ∀ (ps : List PatternConfig) (acc : List JSH.ScanResult),
      List.Pairwise resultPairDistinctTV acc →
      List.Pairwise resultPairDistinctTV
        (ps.foldl (fun acc2 p =>
          (p.matcher content).foldl
            (JSH.scanStep excl genId now fileUrl sourceRequestId sourceUrl p) acc2) acc) := by
    intro ps
    induction ps with
    | nil => intro acc h; exact h
    | cons p ps ih =>
      intro acc h
      exact ih _ (foldl_scanStep_pairwise_distinct excl genId now fileUrl sourceRequestId
        sourceUrl p (p.matcher content) acc h)
  have hall := main pats [] List.Pairwise.nil
  exact hall.imp (fun hab hc => hab ⟨hc.2.1, hc.2.2⟩)

/-- C3: the `getSeverity` table is exactly the claimed map — category
`secret` is `critical` when the pattern name contains `AWS`, `Private Key`,
or `Database`, `high` when it contains `API Key`, `JWT`, or `Token` (and none
of the critical markers), and `medium` otherwise; `endpoint` maps to
`medium`, `email` to `low`, `ip` to `info` — and every Finding produced by
the backend `scanJSContent` carries the severity determined by its own
category and pattern name through that map. -/
theorem c3_severity_determined_by_category_and_pattern :
    (∀ n : String,
      (strIncludes n "AWS" = true ∨ strIncludes n "Private Key" = true ∨
        strIncludes n "Database" = true) →
      JSH.getSeverity "secret" n = "critical")
  ∧ (∀ n : String,
      strIncludes n "AWS" = false → strIncludes n "Private Key" = false →
      strIncludes n "Database" = false →
      (strIncludes n "API Key" = true ∨ strIncludes n "JWT" = true ∨
        strIncludes n "Token" = true) →
      JSH.getSeverity "secret" n = "high")
  ∧ (∀ n : String,
      strIncludes n "AWS" = false → strIncludes n "Private Key" = false →
      strIncludes n "Database" = false → strIncludes n "API Key" = false →
      strIncludes n "JWT" = false → strIncludes n "Token" = false →
      JSH.getSeverity "secret" n = "medium")
  ∧ (∀ n : String, JSH.getSeverity "endpoint" n = "medium")
  ∧ (∀ n : String, JSH.getSeverity "email" n = "low")
  ∧ (∀ n : String, JSH.getSeverity "ip" n = "info")
  ∧ (∀ (pats : List PatternConfig) (excl : String → Bool) (genId : Nat → String) (now : Nat)
        (content fileUrl sourceRequestId sourceUrl : String)
        (r : JSH.ScanResult),
      r ∈ JSH.scanJSContent pats excl genId now content fileUrl sourceRequestId sourceUrl →
      r.severity = JSH.getSeverity r.matchType r.patternName) := by
  refine ⟨?_, ?_, ?_, ?_, ?_, ?_, ?_⟩
  · intro n h
    rcases h with h | h | h <;> simp [JSH.getSeverity, h]
  · intro n h1 h2 h3 h
    rcases h with h | h | h <;> simp [JSH.getSeverity, h1, h2, h3, h]
  · intro n h1 h2 h3 h4 h5 h6
    simp [JSH.getSeverity, h1, h2, h3, h4, h5, h6]
  · intro n; rfl
  · intro n; rfl
  · intro n; rfl
  · intro pats excl genId now content fileUrl sourceRequestId sourceUrl r hr
    exact scanJSContent_severity_invariant pats excl genId now content fileUrl
      sourceRequestId sourceUrl r hr

/-- C3 witness: the severity map applied to concrete pattern names of the
shipped pattern table. -/
theorem c3_severity_determined_witness :
    JSH.getSeverity "secret" "AWS Secret Key" = "critical" ∧
    JSH.getSeverity "secret" "Google API Key" = "high" ∧
    JSH.getSeverity "secret" "Stripe Live Key" = "medium" ∧
    JSH.getSeverity "endpoint" "Relative API Paths" = "medium" := by
  refine ⟨?_, ?_, ?_, ?_⟩
  · exact c3_severity_determined_by_category_and_pattern.1 "AWS Secret Key" (Or.inl (by decide))
  · exact c3_severity_determined_by_category_and_pattern.2.1 "Google API Key"
      (by decide) (by decide) (by decide) (Or.inl (by decide))
  · exact c3_severity_determined_by_category_and_pattern.2.2.1 "Stripe Live Key"
      (by decide) (by decide) (by decide) (by decide) (by decide) (by decide)
  · exact c3_severity_determined_by_category_and_pattern.2.2.2.1 "Relative API Paths"

/-- A target whose URL is already in the scanned-URL set is skipped: the
state is returned unchanged. -/
theorem processJSFile_skip (net : String → Option String) (now : Nat)
    (pats : List PatternConfig) (excl : String → Bool)
    (jsFile : JSScanner.JSFile) (s : JSScanner.State)
    (h : s.scannedFiles.contains jsFile.url = true) :
    JSScanner.processJSFile net now pats excl jsFile s = s := by
  unfold JSScanner.processJSFile
  rw [h]
  simp

/-- A target whose URL is new is marked scanned: in every branch the
scanned-URL set of the resulting state is the old set extended with the
target's URL, and the result list is only ever extended. -/
theorem processJSFile_mark (net : String → Option String) (now : Nat)
    (pats : List PatternConfig) (excl : String → Bool)
    (jsFile : JSScanner.JSFile) (s : JSScanner.State)
    (h : s.scannedFiles.contains jsFile.url = false) :
    (JSScanner.processJSFile net now pats excl jsFile s).scannedFiles
      = jsFile.url :: s.scannedFiles := by
  unfold JSScanner.processJSFile
  rw [h]
  simp only [Bool.false_eq_true, if_false]
  split
  · split
    · rfl
    · split
      · rfl
      · rfl
  · split
    · rfl
    · rfl

/-- A target with empty content whose resolution fails — an inline pseudo-URL
(never re-downloaded) or a failed download — leaves the results untouched and
only marks the URL scanned. -/
theorem processJSFile_failed_resolution (net : String → Option String) (now : Nat)
    (pats : List PatternConfig) (excl : String → Bool)
    (jsFile : JSScanner.JSFile) (s : JSScanner.State)
    (hnew : s.scannedFiles.contains jsFile.url = false)
    (hempty : jsFile.content = "")
    (hfail : strIncludes jsFile.url "#inline-script-" = true ∨ net jsFile.url = none) :
    JSScanner.processJSFile net now pats excl jsFile s
      = { s with scannedFiles := jsFile.url :: s.scannedFiles } := by
  unfold JSScanner.processJSFile
  rw [hnew]
  simp only [Bool.false_eq_true, if_false]
  by_cases hinl : strIncludes jsFile.url "#inline-script-" = true
  · simp [hempty, hinl]
  · have hnet : net jsFile.url = none := by
      rcases hfail with hf | hf
      · exact absurd hf hinl
      · exact hf
    rw [Bool.not_eq_true] at hinl
    simp [hempty, hinl, JSScanner.downloadJSFile, hnet]

/-- C6: the per-target processing step first checks the session-scoped
scanned-URL set — returning the state unchanged when the target's URL is
already present — and otherwise marks the URL present; consequently
processing the same target a second time is a no-op, so a given scan-target
URL is scanned at most once per session. -/
theorem c6_processJSFile_at_most_once (net : String → Option String) (now : Nat)
    (pats : List PatternConfig) (excl : String → Bool)
    (jsFile : JSScanner.JSFile) (s : JSScanner.State) :
    (s.scannedFiles.contains jsFile.url = true →
      JSScanner.processJSFile net now pats excl jsFile s = s)
  ∧ (s.scannedFiles.contains jsFile.url = false →
      (JSScanner.processJSFile net now pats excl jsFile s).scannedFiles
        = jsFile.url :: s.scannedFiles)
  ∧ JSScanner.processJSFile net now pats excl jsFile
      (JSScanner.processJSFile net now pats excl jsFile s)
      = JSScanner.processJSFile net now pats excl jsFile s := by
  refine ⟨processJSFile_skip net now pats excl jsFile s,
          processJSFile_mark net now pats excl jsFile s, ?_⟩
  by_cases hc : s.scannedFiles.contains jsFile.url = true
  · rw [processJSFile_skip net now pats excl jsFile s hc]
    exact processJSFile_skip net now pats excl jsFile s hc
  · rw [Bool.not_eq_true] at hc
    apply processJSFile_skip
    rw [processJSFile_mark net now pats excl jsFile s hc]
    simp [List.contains_cons]

/-- C6 witness: the at-most-once property at a concrete target and state in
which the URL was already scanned. -/
theorem c6_processJSFile_at_most_once_witness :
    JSScanner.processJSFile (fun _ => none) 0 [] (fun _ => false)
      { url := "https://h.com/a.js", content := "", sourceRequestId := "r1",
        sourceUrl := "https://h.com/" }
      { scannedFiles := ["https://h.com/a.js"], results := [] }
    = { scannedFiles := ["https://h.com/a.js"], results := [] } :=
  (c6_processJSFile_at_most_once (fun _ => none) 0 [] (fun _ => false)
    { url := "https://h.com/a.js", content := "", sourceRequestId := "r1",
      sourceUrl := "https://h.com/" }
    { scannedFiles := ["https://h.com/a.js"], results := [] }).1 (by decide)

/-- C10: the per-target processing step adds the target's URL to the
scanned-URL set before attempting content resolution, so a target whose
resolution fails — a failed download or an inline pseudo-URL with no cached
body — produces no Findings, yet remains marked scanned, and any later
delivery of the same URL (even with content available and a working network)
is a no-op for the rest of the session. -/
theorem c10_failed_resolution_permanently_skipped (net : String → Option String) (now : Nat)
    (pats : List PatternConfig) (excl : String → Bool)
    (jsFile : JSScanner.JSFile) (s : JSScanner.State)
    (hnew : s.scannedFiles.contains jsFile.url = false)
    (hempty : jsFile.content = "")
    (hfail : strIncludes jsFile.url "#inline-script-" = true ∨ net jsFile.url = none) :
    (JSScanner.processJSFile net now pats excl jsFile s).results = s.results
  ∧ (JSScanner.processJSFile net now pats excl jsFile s).scannedFiles
      = jsFile.url :: s.scannedFiles
  ∧ (∀ (net2 : String → Option String) (now2 : Nat) (pats2 : List PatternConfig)
        (excl2 : String → Bool) (f2 : JSScanner.JSFile),
      f2.url = jsFile.url →
      JSScanner.processJSFile net2 now2 pats2 excl2 f2
          (JSScanner.processJSFile net now pats excl jsFile s)
        = JSScanner.processJSFile net now pats excl jsFile s) := by
  have hchar := processJSFile_failed_resolution net now pats excl jsFile s hnew hempty hfail
  refine ⟨by rw [hchar], by rw [hchar], ?_⟩
  intro net2 now2 pats2 excl2 f2 hurl
  apply processJSFile_skip
  rw [hchar, hurl]
  simp [List.contains_cons]

/-- C10 witness: a concrete target with empty content and a failing network
is marked scanned, yields no results, and a later delivery of the same URL
with content available and a working network is skipped. -/
theorem c10_failed_resolution_permanently_skipped_witness :
    (JSScanner.processJSFile (fun _ => none) 0 [] (fun _ => false)
        { url := "https://h.com/a.js", content := "", sourceRequestId := "r1",
          sourceUrl := "https://h.com/" }
        JSScanner.initState).results = []
  ∧ JSScanner.processJSFile (fun _ => some "var api = 1;") 5 [] (fun _ => false)
        { url := "https://h.com/a.js", content := "var api = 1;", sourceRequestId := "r2",
          sourceUrl := "https://h.com/" }
        (JSScanner.processJSFile (fun _ => none) 0 [] (fun _ => false)
          { url := "https://h.com/a.js", content := "", sourceRequestId := "r1",
            sourceUrl := "https://h.com/" }
          JSScanner.initState)
      = JSScanner.processJSFile (fun _ => none) 0 [] (fun _ => false)
          { url := "https://h.com/a.js", content := "", sourceRequestId := "r1",
            sourceUrl := "https://h.com/" }
          JSScanner.initState := by
  have h := c10_failed_resolution_permanently_skipped (fun _ => none) 0 [] (fun _ => false)
    { url := "https://h.com/a.js", content := "", sourceRequestId := "r1",
      sourceUrl := "https://h.com/" }
    JSScanner.initState (by decide) rfl (Or.inr rfl)
  exact ⟨h.1, h.2.2 (fun _ => some "var api = 1;") 5 [] (fun _ => false)
    { url := "https://h.com/a.js", content := "var api = 1;", sourceRequestId := "r2",
      sourceUrl := "https://h.com/" } rfl⟩

/-- C9: `clear` resets the scanner's entire mutable state (results and the
scanned-URL dedup set) to the initial state, and reprocessing the same
response after a `clear` reproduces exactly the state — and hence exactly the
Findings, in order — of the first processing run. -/
theorem c9_clear_then_reprocess_reproduces (net : String → Option String) (now : Nat)
    (pats : List PatternConfig) (excl : String → Bool)
    (responseBody responseUrl requestId : String) :
    (∀ s : JSScanner.State, JSScanner.clear s = JSScanner.initState)
  ∧ JSScanner.processResponse net now pats excl responseBody responseUrl requestId
      (JSScanner.clear (JSScanner.processResponse net now pats excl responseBody responseUrl
        requestId JSScanner.initState))
    = JSScanner.processResponse net now pats excl responseBody responseUrl requestId
        JSScanner.initState :=
  ⟨fun _ => rfl, rfl⟩

/-- C7: backend content resolution returns the cached value when the URL is
in the content cache; returns `none` for an inline pseudo-URL with no cache
entry; returns `none` on a transport failure or a non-200 status, leaving the
cache unchanged (the single `net` application models the one GET — there is
no retry); and on a successful (status 200) fetch stores the decoded body in
the content cache and returns it. -/
theorem c7_downloadJSFile_content_resolution (net : String → Option (Nat × String))
    (url : String) (cache : List (String × String)) :
    (∀ c : String, JSH.cacheGet cache url = some c →
      JSH.downloadJSFile net url cache = (some c, cache))
  ∧ (JSH.cacheGet cache url = none → strIncludes url "#inline-script-" = true →
      JSH.downloadJSFile net url cache = (none, cache))
  ∧ (JSH.cacheGet cache url = none → strIncludes url "#inline-script-" = false →
      net url = none → JSH.downloadJSFile net url cache = (none, cache))
  ∧ (∀ (st : Nat) (b : String), JSH.cacheGet cache url = none →
      strIncludes url "#inline-script-" = false → net url = some (st, b) → st ≠ 200 →
      JSH.downloadJSFile net url cache = (none, cache))
  ∧ (∀ b : String, JSH.cacheGet cache url = none →
      strIncludes url "#inline-script-" = false → net url = some (200, b) →
      JSH.downloadJSFile net url cache = (some b, (url, b) :: cache)
        ∧ JSH.cacheGet ((url, b) :: cache) url = some b) := by
  refine ⟨?_, ?_, ?_, ?_, ?_⟩
  · intro c hc
    simp [JSH.downloadJSFile, hc]
  · intro hc hinl
    simp [JSH.downloadJSFile, hc, hinl, JSH.jsOrNull]
  · intro hc hinl hnet
    simp [JSH.downloadJSFile, hc, hinl, hnet]
  · intro st b hc hinl hnet hst
    simp [JSH.downloadJSFile, hc, hinl, hnet, hst]
  · intro b hc hinl hnet
    constructor
    · simp [JSH.downloadJSFile, hc, hinl, hnet]
    · simp [JSH.cacheGet, List.find?]

/-- C7 witness: a successful fetch of an uncached URL returns the body and
stores it in the cache. -/
theorem c7_downloadJSFile_content_resolution_witness :
    JSH.downloadJSFile (fun _ => some (200, "var x = 1;")) "https://h.com/a.js" []
      = (some "var x = 1;", [("https://h.com/a.js", "var x = 1;")]) :=
  ((c7_downloadJSFile_content_resolution (fun _ => some (200, "var x = 1;"))
    "https://h.com/a.js" []).2.2.2.2 "var x = 1;" rfl (by decide) rfl).1

/-- The URLs produced by the backend inline loop starting at counter `i` are
the marker URLs numbered `i`, `i+1`, ... in order. -/
theorem inlineLoop_urls (baseUrl : String) :
    ∀ (l : List String) (i : Nat),
      (JSH.inlineLoop baseUrl i l).1
        = (List.range l.length).map (fun j => baseUrl ++ "#inline-script-" ++ toString (i + j)) := by
  intro l
  induction l with
  | nil => intro i; rfl
  | cons b bs ih =>
    intro i
    simp only [JSH.inlineLoop, List.length_cons, List.range_succ_eq_map, List.map_cons,
      List.map_map]
    refine congrArg₂ List.cons ?_ ?_
    · exact congrArg (fun n => baseUrl ++ "#inline-script-" ++ toString n) (Nat.add_zero i).symm
    · rw [ih (i + 1)]
      apply List.map_congr_left
      intro a _
      exact congrArg (fun n => baseUrl ++ "#inline-script-" ++ toString n) (by omega)

/-- C5: in the backend extraction an inline script block is emitted as a scan
candidate exactly when its trimmed body exceeds 100 characters — the emitted
inline candidates are the marker URLs numbered 0, 1, ... over the qualifying
blocks, appended after the external candidates — and concretely a 50-character
inline block yields zero candidates while a 150-character inline block yields
exactly one candidate whose synthetic URL contains `#inline-script-` and
whose body is cached under that URL. -/
theorem c5_inline_threshold_and_candidates :
    (∀ (urlResolve : String → String → Option String) (htmlContent baseUrl : String),
      (JSH.extractJSFiles urlResolve htmlContent baseUrl).1
        = (jsSrcValues htmlContent).filterMap (fun src =>
            if jsEndsWith src ".js" || strIncludes src ".js?"
            then JSH.resolveUrl urlResolve src baseUrl else none)
          ++ (List.range
                (((jsInlineBodies htmlContent).map jsTrim).filter
                  (fun c => 100 < c.data.length)).length).map
              (fun j => baseUrl ++ "#inline-script-" ++ toString j))
  ∧ JSH.extractJSFiles (fun _ _ => none)
      ("<script>" ++ String.mk (List.replicate 50 'a') ++ "</script>") "https://h.com/p"
      = ([], [])
  ∧ JSH.extractJSFiles (fun _ _ => none)
      ("<script>" ++ String.mk (List.replicate 150 'a') ++ "</script>") "https://h.com/p"
      = (["https://h.com/p#inline-script-0"],
         [("https://h.com/p#inline-script-0", String.mk (List.replicate 150 'a'))])
  ∧ strIncludes "https://h.com/p#inline-script-0" "#inline-script-" = true := by
  refine ⟨?_, by decide, by decide, by decide⟩
  intro urlResolve htmlContent baseUrl
  simp only [JSH.extractJSFiles]
  rw [inlineLoop_urls baseUrl _ 0]
  congr 1
  apply List.map_congr_left
  intro a _
  exact congrArg (fun n => baseUrl ++ "#inline-script-" ++ toString n) (Nat.zero_add a)

/-- C4: evaluation of the `src/scanner.ts` extraction at a failing input:
with two qualifying inline blocks in one HTML document, that code path builds
both synthetic URLs from `Date.now()` (here the ambient clock value
1711111111111) rather than from a per-call sequence index, so the two
synthetic URLs are identical — the output is not duplicate-free, against the
claimed per-call uniqueness and determinism of sequence-indexed URLs (the
backend path, see the C5 theorem, does use a sequence index). -/
theorem c4_scanner_inline_urls_not_sequence_indexed :
    JSScanner.extractJSFiles 1711111111111
      ("<script>" ++ String.mk (List.replicate 110 'a') ++ "</script><script>" ++
        String.mk (List.replicate 110 'b') ++ "</script>")
      "https://h.com/p"
      = ["https://h.com/p#inline-script-1711111111111",
         "https://h.com/p#inline-script-1711111111111"]
  ∧ ¬ (JSScanner.extractJSFiles 1711111111111
      ("<script>" ++ String.mk (List.replicate 110 'a') ++ "</script><script>" ++
        String.mk (List.replicate 110 'b') ++ "</script>")
      "https://h.com/p").Nodup := by
  have h : JSScanner.extractJSFiles 1711111111111
      ("<script>" ++ String.mk (List.replicate 110 'a') ++ "</script><script>" ++
        String.mk (List.replicate 110 'b') ++ "</script>")
      "https://h.com/p"
      = ["https://h.com/p#inline-script-1711111111111",
         "https://h.com/p#inline-script-1711111111111"] := by decide
  refine ⟨h, ?_⟩
  rw [h]
  decide

/-- C8 counterexample: the CSV export of an empty result list is the quoted
header row — whose URL columns are named `File URL` and `Source URL` — not
the bare string `ID,Type,Severity,Pattern,Value,FileURL,SourceURL,Timestamp`
asserted by the claim. -/
theorem c8_header_row_counterexample :
    JSH.exportCSV []
      ≠ "ID,Type,Severity,Pattern,Value,FileURL,SourceURL,Timestamp"
  ∧ JSH.exportCSV []
      = "\"ID\",\"Type\",\"Severity\",\"Pattern\",\"Value\",\"File URL\",\"Source URL\",\"Timestamp\"" := by
  constructor
  · decide
  · decide

/-- C8 (amended): the CSV export is the quoted header row
`"ID","Type","Severity","Pattern","Value","File URL","Source URL","Timestamp"`
followed by exactly one row per Finding in insertion order, every field
double-quoted with embedded double quotes escaped as two double quotes and
the timestamp rendered as an ISO-8601 string; for the empty Finding list the
output is the header row alone. -/
theorem c8_exportCSV_amended :
    (∀ results : List JSH.ScanResult,
      JSH.exportCSV results
        = String.intercalate "\n"
            (JSH.csvRowString JSH.headerCells
              :: results.map (fun r => JSH.csvRowString (JSH.rowCells r))))
  ∧ JSH.csvRowString JSH.headerCells
      = "\"ID\",\"Type\",\"Severity\",\"Pattern\",\"Value\",\"File URL\",\"Source URL\",\"Timestamp\""
  ∧ (∀ r : JSH.ScanResult,
      JSH.csvRowString (JSH.rowCells r)
        = String.intercalate ","
            ([r.id, r.matchType, r.severity, r.patternName, r.matchValue, r.fileUrl,
              r.sourceUrl, isoOfMillis r.timestamp].map
              (fun c => "\"" ++ JSH.escQ c ++ "\"")))
  ∧ JSH.exportCSV []
      = "\"ID\",\"Type\",\"Severity\",\"Pattern\",\"Value\",\"File URL\",\"Source URL\",\"Timestamp\""
  ∧ isoOfMillis 1704067200000 = "2024-01-01T00:00:00.000Z"
  ∧ JSH.exportCSV
      [{ id := "id1", fileUrl := "https://h.com/a.js", matchType := "secret",
         matchValue := "x = \"s3cr3tv4l\"", sourceRequestId := "r1",
         sourceUrl := "https://h.com", patternName := "Generic Secret/Password",
         timestamp := 0, severity := "high" }]
      = "\"ID\",\"Type\",\"Severity\",\"Pattern\",\"Value\",\"File URL\",\"Source URL\",\"Timestamp\"\n\"id1\",\"secret\",\"high\",\"Generic Secret/Password\",\"x = \"\"s3cr3tv4l\"\"\",\"https://h.com/a.js\",\"https://h.com\",\"1970-01-01T00:00:00.000Z\"" := by
  refine ⟨?_, by decide, ?_, by decide, by decide, by decide⟩
  · intro results
    simp only [JSH.exportCSV, List.map_cons, List.map_map]
    rfl
  · intro r
    rfl

/-- C2 witness: the resolver rules applied at concrete inputs, including a
base URL that fails to parse. -/
theorem c2_resolveUrl_rules_witness :
    JSScanner.resolveUrl "a.js" "not a url" = none ∧
    JSScanner.resolveUrl "https://z.com/a" "not a url" = some "https://z.com/a" := by
  constructor
  · exact c2_resolveUrl_rules.2.2.2.2.1 "a.js" "not a url" (by decide) (by decide) (by decide)
  · exact c2_resolveUrl_rules.1 "https://z.com/a" "not a url" (Or.inr (by decide))
